import Mathlib

/-!
Shallow embedding of the UTF-8 validating decoder from `src/core.rs` and the
public error enum from `src/error.rs` of the `valid_utf8` crate.

Modelling conventions:
* A byte (Rust `u8`) is a `Nat`; whenever a Rust cast truncates, the
  truncation is written explicitly (`% 2 ^ 8`, `% 2 ^ 16`).
* The caller's byte iterator is modelled as the list of bytes it has not yet
  yielded.  A stateful operation on the iterator becomes a function
  `List Nat → Except UtfError Nat × List Nat` returning its result together
  with the bytes remaining in the caller's iterator afterwards.
* `validate_next` wraps the caller's `&mut I` in a local `Peekable` and drops
  that wrapper on return.  `peek` pulls one byte out of the caller's iterator
  into the wrapper's buffer; a buffered byte that was never consumed by
  `next` is lost when the wrapper is dropped.  Hence on the classifier-error
  path the caller's iterator has still advanced past the peeked lead byte,
  which the model renders as returning `l.tail` there.
-/

deriving instance DecidableEq for Except

namespace ValidUtf8

/-- Error enum private to `src/core.rs` (the type `validate_next` actually
returns); all of its variants are nullary. -/
inductive UtfError where
  | EmptyInput
  | NotEnoughRoom
  | InvalidLead
  | IncompleteSequence
  | OverlongSequence
  | InvalidCodePoint
deriving DecidableEq, Repr

namespace error

/-- Public error enum of `src/error.rs`, re-exported by `lib.rs`; its variants
carry diagnostic payloads.  `validate_next` does not use this type. -/
inductive UtfError where
  | NotEnoughRoom
  | InvalidLead (lead : Nat)
  | IncompleteSequence (code_point : Nat)
  | OverlongSequence (code_point : Nat)
  | InvalidCodePoint (code_point : Nat)
deriving DecidableEq, Repr

end error

def LEAD_SURROGATE_MIN : Nat := 0xd800
def TRAIL_SURROGATE_MAX : Nat := 0xdfff
def CODE_POINT_MAX : Nat := 0x0010ffff

/-- Macro `mask8!`: `(0xff & $oc) as u8`. -/
def mask8 (oc : Nat) : Nat := 0xff &&& oc

/-- Macro `is_trail!`: `(mask8!($oc) >> 6) == 0x2`. -/
def is_trail_mac (oc : Nat) : Bool := mask8 oc >>> 6 == 0x2

/-- Macro `is_surrogate!`: `$cp >= LEAD_SURROGATE_MIN && $cp <= TRAIL_SURROGATE_MAX`
(compared at type `u16` in the one place it is used). -/
def is_surrogate (cp : Nat) : Bool :=
  decide (LEAD_SURROGATE_MIN ≤ cp) && decide (cp ≤ TRAIL_SURROGATE_MAX)

/-- Macro `is_code_point_valid!`: `$cp <= CODE_POINT_MAX && !is_surrogate!($cp as u16)`.
The cast `$cp as u16` truncates the `u32` code point to 16 bits. -/
def is_code_point_valid (cp : Nat) : Bool :=
  decide (cp ≤ CODE_POINT_MAX) && !is_surrogate (cp % 2 ^ 16)

/-- Rust enum `SeqLen`. -/
inductive SeqLen where
  | One
  | Two
  | Three
  | Four
deriving DecidableEq, Repr

/-- `fn sequence_length(lead_byte: Option<u8>) -> Result<SeqLen, UtfError>`:
matches the guards in source order; `None` and every unguarded `Some` fall to
the `_ => Err(UtfError::InvalidLead)` arm. -/
def sequence_length : Option Nat → Except UtfError SeqLen
  | some b =>
    if b < 0x80 then .ok .One
    else if b >>> 5 == 0x6 then .ok .Two
    else if b >>> 4 == 0xe then .ok .Three
    else if b >>> 3 == 0x1e then .ok .Four
    else .error .InvalidLead
  | none => .error .InvalidLead

/-- `fn is_overlong_sequence(cp: u32, length: SeqLen) -> bool`. -/
def is_overlong_sequence (cp : Nat) (length : SeqLen) : Bool :=
  if cp < 0x80 then length != SeqLen.One
  else if cp < 0x800 then length != SeqLen.Two
  else if cp < 0x10000 then length != SeqLen.Three
  else false

/-- `fn get_next_byte`: `it.next().map(|v| v.as_byte()).ok_or(UtfError::NotEnoughRoom)`. -/
def get_next_byte : List Nat → Except UtfError Nat × List Nat
  | [] => (.error .NotEnoughRoom, [])
  | b :: rest => (.ok b, rest)

/-- `fn is_trail(byte: u8) -> Result<u8, UtfError>`. -/
def is_trail (byte : Nat) : Except UtfError Nat :=
  if is_trail_mac byte then .ok byte else .error .IncompleteSequence

/-- `fn get_sequence_1`: `get_next_byte(it).map(|byte| byte as u32)`; the cast
`u8 as u32` is the identity on the `Nat` embedding. -/
def get_sequence_1 (l : List Nat) : Except UtfError Nat × List Nat :=
  get_next_byte l

/-- `fn get_sequence_2`: lead byte, then one checked continuation byte,
assembled as `((code_point << 6) & 0x7ff) + ((byte & 0x3f) as u32)`. -/
def get_sequence_2 (l : List Nat) : Except UtfError Nat × List Nat :=
  match get_sequence_1 l with
  | (.error e, l1) => (.error e, l1)
  | (.ok code_point, l1) =>
    match get_next_byte l1 with
    | (.error e, l2) => (.error e, l2)
    | (.ok b, l2) =>
      match is_trail b with
      | .error e => (.error e, l2)
      | .ok byte => (.ok (((code_point <<< 6) &&& 0x7ff) + (byte &&& 0x3f)), l2)

/-- `fn get_sequence_3`: lead byte, then two checked continuation bytes. -/
def get_sequence_3 (l : List Nat) : Except UtfError Nat × List Nat :=
  match get_sequence_1 l with
  | (.error e, l1) => (.error e, l1)
  | (.ok code_point, l1) =>
    match get_next_byte l1 with
    | (.error e, l2) => (.error e, l2)
    | (.ok b, l2) =>
      match is_trail b with
      | .error e => (.error e, l2)
      | .ok byte =>
        let code_point := ((code_point <<< 12) &&& 0xffff) + ((byte <<< 6) &&& 0xfff)
        match get_next_byte l2 with
        | (.error e, l3) => (.error e, l3)
        | (.ok b2, l3) =>
          match is_trail b2 with
          | .error e => (.error e, l3)
          | .ok byte2 => (.ok (code_point + (byte2 &&& 0x3f)), l3)

/-- `fn get_sequence_4`: lead byte, then three checked continuation bytes. -/
def get_sequence_4 (l : List Nat) : Except UtfError Nat × List Nat :=
  match get_sequence_1 l with
  | (.error e, l1) => (.error e, l1)
  | (.ok code_point, l1) =>
    match get_next_byte l1 with
    | (.error e, l2) => (.error e, l2)
    | (.ok b, l2) =>
      match is_trail b with
      | .error e => (.error e, l2)
      | .ok byte =>
        let code_point := ((code_point <<< 18) &&& 0x1fffff) + ((byte <<< 12) &&& 0x3ffff)
        match get_next_byte l2 with
        | (.error e, l3) => (.error e, l3)
        | (.ok b2, l3) =>
          match is_trail b2 with
          | .error e => (.error e, l3)
          | .ok byte2 =>
            let code_point := code_point + ((byte2 <<< 6) &&& 0xfff)
            match get_next_byte l3 with
            | (.error e, l4) => (.error e, l4)
            | (.ok b3, l4) =>
              match is_trail b3 with
              | .error e => (.error e, l4)
              | .ok byte3 => (.ok (code_point + (byte3 &&& 0x3f)), l4)

/-- The `match length` dispatch inside `validate_next`. -/
def run_sequence (length : SeqLen) (l : List Nat) : Except UtfError Nat × List Nat :=
  match length with
  | .One => get_sequence_1 l
  | .Two => get_sequence_2 l
  | .Three => get_sequence_3 l
  | .Four => get_sequence_4 l

/-- `fn validate_next`: peeks the lead byte through a local `Peekable` wrapper
over the caller's iterator, classifies it, runs the length-specific decoder on
the same wrapper, then applies the validity and overlong checks.  On the
classifier-error path the peeked byte (when one existed) has already been
pulled out of the caller's iterator and is lost with the dropped wrapper, so
the remaining bytes are `l.tail`. -/
def validate_next (l : List Nat) : Except UtfError Nat × List Nat :=
  match sequence_length l.head? with
  | .error e => (.error e, l.tail)
  | .ok length =>
    match run_sequence length l with
    | (.error e, l1) => (.error e, l1)
    | (.ok code_point, l1) =>
      if is_code_point_valid code_point then
        if !is_overlong_sequence code_point length then
          (.ok code_point, l1)
        else
          (.error .OverlongSequence, l1)
      else
        (.error .InvalidCodePoint, l1)

/-- Reference encoder of spec section 8: the standard minimal UTF-8 encoding
of a Unicode scalar value, written with division and remainder
(`cp / 2 ^ k` is `cp >> k` and `cp % 2 ^ 6` is `cp & 0x3f`). -/
def utf8_encode (cp : Nat) : List Nat :=
  if cp < 0x80 then
    [cp]
  else if cp < 0x800 then
    [0xc0 + cp / 2 ^ 6, 0x80 + cp % 2 ^ 6]
  else if cp < 0x10000 then
    [0xe0 + cp / 2 ^ 12, 0x80 + cp / 2 ^ 6 % 2 ^ 6, 0x80 + cp % 2 ^ 6]
  else
    [0xf0 + cp / 2 ^ 18, 0x80 + cp / 2 ^ 12 % 2 ^ 6, 0x80 + cp / 2 ^ 6 % 2 ^ 6,
      0x80 + cp % 2 ^ 6]

/-- Boolean observer used to state that a result is the `EmptyInput` error. -/
def is_empty_input_err : Except UtfError Nat → Bool
  | .error .EmptyInput => true
  | _ => false

/-- Number of bytes a classified sequence length requires. -/
def seq_len_nat : SeqLen → Nat
  | .One => 1
  | .Two => 2
  | .Three => 3
  | .Four => 4

section ArithmeticHelpers

lemma and255 (x : Nat) : 0xff &&& x = x % 256 := by
  have h := Nat.and_pow_two_sub_one_eq_mod x 8
  rw [Nat.and_comm] at h
  simpa using h

lemma and7 (x : Nat) : x &&& 0x07 = x % 8 := by
  have h := Nat.and_pow_two_sub_one_eq_mod x 3
  simpa using h

lemma and15 (x : Nat) : x &&& 0x0f = x % 16 := by
  have h := Nat.and_pow_two_sub_one_eq_mod x 4
  simpa using h

lemma and31 (x : Nat) : x &&& 0x1f = x % 32 := by
  have h := Nat.and_pow_two_sub_one_eq_mod x 5
  simpa using h

lemma and63 (x : Nat) : x &&& 0x3f = x % 64 := by
  have h := Nat.and_pow_two_sub_one_eq_mod x 6
  simpa using h

lemma and2047 (x : Nat) : x &&& 0x7ff = x % 2048 := by
  have h := Nat.and_pow_two_sub_one_eq_mod x 11
  simpa using h

lemma and4095 (x : Nat) : x &&& 0xfff = x % 4096 := by
  have h := Nat.and_pow_two_sub_one_eq_mod x 12
  simpa using h

lemma and65535 (x : Nat) : x &&& 0xffff = x % 65536 := by
  have h := Nat.and_pow_two_sub_one_eq_mod x 16
  simpa using h

lemma and262143 (x : Nat) : x &&& 0x3ffff = x % 262144 := by
  have h := Nat.and_pow_two_sub_one_eq_mod x 18
  simpa using h

lemma and2097151 (x : Nat) : x &&& 0x1fffff = x % 2097152 := by
  have h := Nat.and_pow_two_sub_one_eq_mod x 21
  simpa using h

lemma shl6 (x : Nat) : x <<< 6 = x * 64 := by
  rw [Nat.shiftLeft_eq]

lemma shl12 (x : Nat) : x <<< 12 = x * 4096 := by
  rw [Nat.shiftLeft_eq]

lemma shl18 (x : Nat) : x <<< 18 = x * 262144 := by
  rw [Nat.shiftLeft_eq]

lemma lor_add (a b k : Nat) (ha : a % 2 ^ k = 0) (hb : b < 2 ^ k) : a ||| b = a + b := by
  rcases Nat.dvd_of_mod_eq_zero ha with ⟨c, rfl⟩
  exact (Nat.mul_add_lt_is_or hb c).symm

end ArithmeticHelpers

section CharacterizationLemmas

lemma trail_true_iff (b : Nat) : is_trail_mac b = true ↔ b % 256 / 64 = 2 := by
  simp [is_trail_mac, mask8, and255, Nat.shiftRight_eq_div_pow]

lemma trail_false_iff (b : Nat) : is_trail_mac b = false ↔ ¬b % 256 / 64 = 2 := by
  rw [← Bool.not_eq_true, trail_true_iff]

lemma seq_some (b : Nat) :
    sequence_length (some b) =
      (if b < 0x80 then .ok .One
       else if b >>> 5 == 0x6 then .ok .Two
       else if b >>> 4 == 0xe then .ok .Three
       else if b >>> 3 == 0x1e then .ok .Four
       else .error .InvalidLead) := rfl

lemma seq_one {b : Nat} (h : b < 0x80) : sequence_length (some b) = .ok .One := by
  rw [seq_some, if_pos h]

lemma seq_two {b : Nat} (h1 : 0xc0 ≤ b) (h2 : b < 0xe0) :
    sequence_length (some b) = .ok .Two := by
  rw [seq_some, if_neg (by omega : ¬b < 0x80),
    if_pos (show (b >>> 5 == 0x6) = true by
      simp only [Nat.shiftRight_eq_div_pow, beq_iff_eq]
      omega)]

lemma seq_three {b : Nat} (h1 : 0xe0 ≤ b) (h2 : b < 0xf0) :
    sequence_length (some b) = .ok .Three := by
  rw [seq_some, if_neg (by omega : ¬b < 0x80),
    if_neg (show ¬(b >>> 5 == 0x6) = true by
      simp only [Nat.shiftRight_eq_div_pow, beq_iff_eq]
      omega),
    if_pos (show (b >>> 4 == 0xe) = true by
      simp only [Nat.shiftRight_eq_div_pow, beq_iff_eq]
      omega)]

lemma seq_four {b : Nat} (h1 : 0xf0 ≤ b) (h2 : b < 0xf8) :
    sequence_length (some b) = .ok .Four := by
  rw [seq_some, if_neg (by omega : ¬b < 0x80),
    if_neg (show ¬(b >>> 5 == 0x6) = true by
      simp only [Nat.shiftRight_eq_div_pow, beq_iff_eq]
      omega),
    if_neg (show ¬(b >>> 4 == 0xe) = true by
      simp only [Nat.shiftRight_eq_div_pow, beq_iff_eq]
      omega),
    if_pos (show (b >>> 3 == 0x1e) = true by
      simp only [Nat.shiftRight_eq_div_pow, beq_iff_eq]
      omega)]

lemma seq_invalid {b : Nat} (h : (0x80 ≤ b ∧ b < 0xc0) ∨ 0xf8 ≤ b) :
    sequence_length (some b) = .error .InvalidLead := by
  rw [seq_some, if_neg (by omega : ¬b < 0x80),
    if_neg (show ¬(b >>> 5 == 0x6) = true by
      simp only [Nat.shiftRight_eq_div_pow, beq_iff_eq]
      omega),
    if_neg (show ¬(b >>> 4 == 0xe) = true by
      simp only [Nat.shiftRight_eq_div_pow, beq_iff_eq]
      omega),
    if_neg (show ¬(b >>> 3 == 0x1e) = true by
      simp only [Nat.shiftRight_eq_div_pow, beq_iff_eq]
      omega)]

lemma seq_err {ob : Option Nat} {e : UtfError} (h : sequence_length ob = .error e) :
    e = .InvalidLead := by
  cases ob with
  | none =>
    simp only [sequence_length, Except.error.injEq] at h
    exact h.symm
  | some b =>
    rw [seq_some] at h
    split_ifs at h
    all_goals simp_all

lemma gs1_cons (a : Nat) (l : List Nat) : get_sequence_1 (a :: l) = (.ok a, l) := rfl

lemma gs2_one (a : Nat) : get_sequence_2 [a] = (.error .NotEnoughRoom, []) := rfl

lemma gs2_cons (a b : Nat) (l : List Nat) :
    get_sequence_2 (a :: b :: l) =
      if is_trail_mac b then
        (.ok (((a <<< 6) &&& 0x7ff) + (b &&& 0x3f)), l)
      else
        (.error .IncompleteSequence, l) := by
  by_cases h : is_trail_mac b <;>
    simp [get_sequence_2, get_sequence_1, get_next_byte, is_trail, h]

lemma gs3_one (a : Nat) : get_sequence_3 [a] = (.error .NotEnoughRoom, []) := rfl

lemma gs3_bad1 (a b : Nat) (l : List Nat) (h : is_trail_mac b = false) :
    get_sequence_3 (a :: b :: l) = (.error .IncompleteSequence, l) := by
  simp [get_sequence_3, get_sequence_1, get_next_byte, is_trail, h]

lemma gs3_good1_one (a b : Nat) (h : is_trail_mac b = true) :
    get_sequence_3 [a, b] = (.error .NotEnoughRoom, []) := by
  simp [get_sequence_3, get_sequence_1, get_next_byte, is_trail, h]

lemma gs3_cons (a b c : Nat) (l : List Nat) (hb : is_trail_mac b = true) :
    get_sequence_3 (a :: b :: c :: l) =
      if is_trail_mac c then
        (.ok (((a <<< 12) &&& 0xffff) + ((b <<< 6) &&& 0xfff) + (c &&& 0x3f)), l)
      else
        (.error .IncompleteSequence, l) := by
  by_cases hc : is_trail_mac c <;>
    simp [get_sequence_3, get_sequence_1, get_next_byte, is_trail, hb, hc]

lemma gs4_one (a : Nat) : get_sequence_4 [a] = (.error .NotEnoughRoom, []) := rfl

lemma gs4_bad1 (a b : Nat) (l : List Nat) (h : is_trail_mac b = false) :
    get_sequence_4 (a :: b :: l) = (.error .IncompleteSequence, l) := by
  simp [get_sequence_4, get_sequence_1, get_next_byte, is_trail, h]

lemma gs4_good1_one (a b : Nat) (h : is_trail_mac b = true) :
    get_sequence_4 [a, b] = (.error .NotEnoughRoom, []) := by
  simp [get_sequence_4, get_sequence_1, get_next_byte, is_trail, h]

lemma gs4_good1_bad2 (a b c : Nat) (l : List Nat) (hb : is_trail_mac b = true)
    (hc : is_trail_mac c = false) :
    get_sequence_4 (a :: b :: c :: l) = (.error .IncompleteSequence, l) := by
  simp [get_sequence_4, get_sequence_1, get_next_byte, is_trail, hb, hc]

lemma gs4_good12_two (a b c : Nat) (hb : is_trail_mac b = true)
    (hc : is_trail_mac c = true) :
    get_sequence_4 [a, b, c] = (.error .NotEnoughRoom, []) := by
  simp [get_sequence_4, get_sequence_1, get_next_byte, is_trail, hb, hc]

lemma gs4_cons (a b c d : Nat) (l : List Nat) (hb : is_trail_mac b = true)
    (hc : is_trail_mac c = true) :
    get_sequence_4 (a :: b :: c :: d :: l) =
      if is_trail_mac d then
        (.ok (((a <<< 18) &&& 0x1fffff) + ((b <<< 12) &&& 0x3ffff) +
          ((c <<< 6) &&& 0xfff) + (d &&& 0x3f)), l)
      else
        (.error .IncompleteSequence, l) := by
  by_cases hd : is_trail_mac d <;>
    simp [get_sequence_4, get_sequence_1, get_next_byte, is_trail, hb, hc, hd]

lemma validate_next_cons_err (b : Nat) (l : List Nat)
    (h : sequence_length (some b) = .error .InvalidLead) :
    validate_next (b :: l) = (.error .InvalidLead, l) := by
  simp [validate_next, h]

lemma validate_next_cons_ok (b : Nat) (l : List Nat) (len : SeqLen)
    (h : sequence_length (some b) = .ok len) :
    validate_next (b :: l) =
      match run_sequence len (b :: l) with
      | (.error e, l1) => (.error e, l1)
      | (.ok cp, l1) =>
        if is_code_point_valid cp then
          if !is_overlong_sequence cp len then (.ok cp, l1)
          else (.error .OverlongSequence, l1)
        else (.error .InvalidCodePoint, l1) := by
  simp [validate_next, h]

lemma validate_next_run_err (b : Nat) (l : List Nat) (len : SeqLen) (e : UtfError)
    (l1 : List Nat) (h : sequence_length (some b) = .ok len)
    (h2 : run_sequence len (b :: l) = (.error e, l1)) :
    validate_next (b :: l) = (.error e, l1) := by
  rw [validate_next_cons_ok b l len h, h2]

lemma validate_next_run_ok (b : Nat) (l : List Nat) (len : SeqLen) (cp : Nat)
    (l1 : List Nat) (h : sequence_length (some b) = .ok len)
    (h2 : run_sequence len (b :: l) = (.ok cp, l1)) :
    validate_next (b :: l) =
      (if is_code_point_valid cp then
        if !is_overlong_sequence cp len then (.ok cp, l1)
        else (.error .OverlongSequence, l1)
      else (.error .InvalidCodePoint, l1)) := by
  rw [validate_next_cons_ok b l len h, h2]

lemma invalid_lead_consumes_peeked (b : Nat) (rest : List Nat)
    (h : sequence_length (some b) = .error .InvalidLead) :
    validate_next (b :: rest) = (.error .InvalidLead, rest) := by
  simp [validate_next, h]

end CharacterizationLemmas

section Claims

/-- C1 (code bug witness): the spec demands that every Unicode scalar value
round-trips through encoding and `validate_next`, but the scalar value
U+1D800 does not: `is_code_point_valid!` truncates the `u32` code point to
`u16` before the surrogate check, so `0x1D800` (whose low 16 bits are
`0xD800`) is rejected as `InvalidCodePoint` even though it is a valid scalar
value in the claimed range U+E000..U+10FFFF. -/
theorem c1_roundtrip_failure_eval :
    utf8_encode 0x1D800 = [0xF0, 0x9D, 0xA0, 0x80] ∧
    0xE000 ≤ 0x1D800 ∧ 0x1D800 ≤ 0x10FFFF ∧
    validate_next (utf8_encode 0x1D800) = (.error .InvalidCodePoint, []) ∧
    is_code_point_valid 0x1D800 = false := by
  decide

/-- C2 (counterexample): on a byte source with no bytes remaining,
`validate_next` does not return `NotEnoughRoom`; the exhausted peek yields
`None`, which `sequence_length` classifies through its catch-all arm as
`InvalidLead`. -/
theorem c2_empty_input_counterexample :
    decide ((validate_next ([] : List Nat)).1 = Except.error UtfError.NotEnoughRoom) = false ∧
    (validate_next ([] : List Nat)).1 = Except.error UtfError.InvalidLead := by
  decide

/-- C2 (amended): a call to `validate_next` on an exhausted byte source
returns `Err(InvalidLead)` (not `NotEnoughRoom`); for the input bytes
`[0x41, 0x21]`, two sequential calls return `Ok(0x41)` then `Ok(0x21)`, and a
third call on the exhausted source returns `Err(InvalidLead)`. -/
theorem c2_streaming_amended :
    validate_next [0x41, 0x21] = (.ok 0x41, [0x21]) ∧
    validate_next [0x21] = (.ok 0x21, []) ∧
    validate_next ([] : List Nat) = (.error .InvalidLead, []) := by
  decide

/-- C3 (counterexample): after `validate_next` fails with `InvalidLead` on the
source `[0x80, 0x41]`, the caller's cursor is not where it was before the
call: the offending lead byte `0x80` has been consumed (it was pulled into the
internal `Peekable` buffer and lost when that wrapper was dropped), leaving
`[0x41]`. -/
theorem c3_cursor_counterexample :
    validate_next [0x80, 0x41] = (Except.error UtfError.InvalidLead, [0x41]) ∧
    decide ((validate_next [0x80, 0x41]).2 = [0x80, 0x41]) = false := by
  decide

/-- C3 (amended): for every byte source whose next byte is not a valid lead
byte, `validate_next` returns `Err(InvalidLead)` and consumes exactly one
byte from the caller's iterator: the peeked lead byte is lost with the
dropped `Peekable` wrapper, so the observable cursor afterwards is one past
where it was before the call. -/
theorem c3_classifier_failure_amended (b : Nat) (rest : List Nat)
    (h : sequence_length (some b) = .error .InvalidLead) :
    validate_next (b :: rest) = (.error .InvalidLead, rest) :=
  invalid_lead_consumes_peeked b rest h

/-- C3 (witness): instantiation at the source `[0x80, 0x41]`. -/
theorem c3_classifier_failure_amended_witness :
    validate_next [0x80, 0x41] = (.error .InvalidLead, [0x41]) :=
  c3_classifier_failure_amended 0x80 [0x41] (by decide)

/-- C4 (counterexample): error values returned by `validate_next` carry no
diagnostic payload; the sources `[0x80]` and `[0xFF]` have different
offending lead bytes yet produce identical `InvalidLead` error values, so the
error cannot carry the offending byte. -/
theorem c4_payload_counterexample :
    (validate_next [0x80]).1 = (validate_next [0xFF]).1 ∧
    (validate_next [0x80]).1 = Except.error UtfError.InvalidLead ∧
    decide ((0x80 : Nat) = 0xFF) = false := by
  decide

/-- C4 (amended): `validate_next` returns the payload-free `UtfError` enum of
`core.rs`, not the payload-carrying enum of `error.rs`: every error it
returns is a bare variant, and in particular any two classifier failures
yield the same `InvalidLead` value regardless of the offending byte. -/
theorem c4_payload_amended (b b' : Nat) (rest rest' : List Nat)
    (h : sequence_length (some b) = .error .InvalidLead)
    (h' : sequence_length (some b') = .error .InvalidLead) :
    (validate_next (b :: rest)).1 = Except.error UtfError.InvalidLead ∧
    (validate_next (b :: rest)).1 = (validate_next (b' :: rest')).1 := by
  rw [invalid_lead_consumes_peeked b rest h, invalid_lead_consumes_peeked b' rest' h']
  exact ⟨rfl, rfl⟩

/-- C4 (witness): instantiation at the offending bytes `0x80` and `0xFF`. -/
theorem c4_payload_amended_witness :
    (validate_next [0x80]).1 = Except.error UtfError.InvalidLead ∧
    (validate_next [0x80]).1 = (validate_next [0xFF]).1 :=
  c4_payload_amended 0x80 0xFF [] [] (by decide) (by decide)

set_option maxRecDepth 4096 in
/-- C5: for every byte in the full 0..255 range, classification follows the
lead-byte bit patterns exactly: values below 0x80 give length 1, 0xC0..0xDF
give length 2, 0xE0..0xEF give length 3, 0xF0..0xF7 give length 4, and every
other byte (stray continuation bytes 0x80..0xBF and the 11111xxx patterns
0xF8..0xFF) is an invalid lead; classification is a pure function of the
byte, so classifying twice gives the same result. -/
theorem c5_sequence_classification :
    ∀ b : Nat, b < 256 →
      sequence_length (some b) =
        (if b < 0x80 then .ok .One
         else if 0xc0 ≤ b ∧ b < 0xe0 then .ok .Two
         else if 0xe0 ≤ b ∧ b < 0xf0 then .ok .Three
         else if 0xf0 ≤ b ∧ b < 0xf8 then .ok .Four
         else .error .InvalidLead) ∧
      sequence_length (some b) = sequence_length (some b) := by
  decide

/-- C5 (witness): the stray continuation byte 0x80 is classified as an
invalid lead. -/
theorem c5_sequence_classification_witness :
    sequence_length (some 0x80) = Except.error UtfError.InvalidLead :=
  ((c5_sequence_classification 0x80 (by decide)).1).trans (by decide)

/-- C6: for every lead byte and continuation bytes accepted by the decoder,
the assembled code point equals the spec masks exactly: for length 1 the lead
byte itself; length 2 is `(lead & 0x1F) << 6 | (b1 & 0x3F)`; length 3 is
`(lead & 0x0F) << 12 | (b1 & 0x3F) << 6 | (b2 & 0x3F)`; length 4 is
`(lead & 0x07) << 18 | (b1 & 0x3F) << 12 | (b2 & 0x3F) << 6 | (b3 & 0x3F)`. -/
theorem c6_bit_assembly :
    (∀ lead rest, get_sequence_1 (lead :: rest) = (.ok lead, rest)) ∧
    (∀ lead b1 rest, is_trail_mac b1 = true →
      get_sequence_2 (lead :: b1 :: rest) =
        (.ok (((lead &&& 0x1f) <<< 6) ||| (b1 &&& 0x3f)), rest)) ∧
    (∀ lead b1 b2 rest, is_trail_mac b1 = true → is_trail_mac b2 = true →
      get_sequence_3 (lead :: b1 :: b2 :: rest) =
        (.ok ((((lead &&& 0x0f) <<< 12) ||| ((b1 &&& 0x3f) <<< 6)) ||| (b2 &&& 0x3f)),
          rest)) ∧
    (∀ lead b1 b2 b3 rest,
      is_trail_mac b1 = true → is_trail_mac b2 = true → is_trail_mac b3 = true →
      get_sequence_4 (lead :: b1 :: b2 :: b3 :: rest) =
        (.ok (((((lead &&& 0x07) <<< 18) ||| ((b1 &&& 0x3f) <<< 12)) |||
          ((b2 &&& 0x3f) <<< 6)) ||| (b3 &&& 0x3f)), rest)) := by
  refine ⟨fun lead rest => gs1_cons lead rest,
    fun lead b1 rest h1 => ?_,
    fun lead b1 b2 rest h1 h2 => ?_,
    fun lead b1 b2 b3 rest h1 h2 h3 => ?_⟩
  · rw [gs2_cons, if_pos h1]
    have harith : ((lead <<< 6) &&& 0x7ff) + (b1 &&& 0x3f) =
        ((lead &&& 0x1f) <<< 6) ||| (b1 &&& 0x3f) := by
      simp only [shl6, and2047, and63, and31]
      rw [lor_add ((lead % 32) * 64) (b1 % 64) 6 (by omega) (by omega)]
      omega
    rw [harith]
  · rw [gs3_cons _ _ _ _ h1, if_pos h2]
    have harith : ((lead <<< 12) &&& 0xffff) + ((b1 <<< 6) &&& 0xfff) + (b2 &&& 0x3f) =
        (((lead &&& 0x0f) <<< 12) ||| ((b1 &&& 0x3f) <<< 6)) ||| (b2 &&& 0x3f) := by
      simp only [shl6, shl12, and65535, and4095, and63, and15]
      rw [lor_add ((lead % 16) * 4096) ((b1 % 64) * 64) 12 (by omega) (by omega)]
      rw [lor_add ((lead % 16) * 4096 + (b1 % 64) * 64) (b2 % 64) 6 (by omega) (by omega)]
      omega
    rw [harith]
  · rw [gs4_cons _ _ _ _ _ h1 h2, if_pos h3]
    have harith : ((lead <<< 18) &&& 0x1fffff) + ((b1 <<< 12) &&& 0x3ffff) +
        ((b2 <<< 6) &&& 0xfff) + (b3 &&& 0x3f) =
        ((((lead &&& 0x07) <<< 18) ||| ((b1 &&& 0x3f) <<< 12)) |||
          ((b2 &&& 0x3f) <<< 6)) ||| (b3 &&& 0x3f) := by
      simp only [shl6, shl12, shl18, and2097151, and262143, and4095, and63, and7]
      rw [lor_add ((lead % 8) * 262144) ((b1 % 64) * 4096) 18 (by omega) (by omega)]
      rw [lor_add ((lead % 8) * 262144 + (b1 % 64) * 4096) ((b2 % 64) * 64) 12
        (by omega) (by omega)]
      rw [lor_add ((lead % 8) * 262144 + (b1 % 64) * 4096 + (b2 % 64) * 64) (b3 % 64) 6
        (by omega) (by omega)]
      omega
    rw [harith]

/-- C6 (witness): instantiations decoding U+00DF from `C3 9F`, U+20AC from
`E2 82 AC` and U+1F600 from `F0 9F 98 80`. -/
theorem c6_bit_assembly_witness :
    get_sequence_2 [0xC3, 0x9F] = (.ok 0xDF, []) ∧
    get_sequence_3 [0xE2, 0x82, 0xAC] = (.ok 0x20AC, []) ∧
    get_sequence_4 [0xF0, 0x9F, 0x98, 0x80] = (.ok 0x1F600, []) := by
  have h := c6_bit_assembly
  refine ⟨(h.2.1 0xC3 0x9F [] (by decide)).trans (by decide),
    (h.2.2.1 0xE2 0x82 0xAC [] (by decide) (by decide)).trans (by decide),
    (h.2.2.2 0xF0 0x9F 0x98 0x80 [] (by decide) (by decide) (by decide)).trans (by decide)⟩

/-- C7: during decoding of a multi-byte sequence, exhaustion of the byte
source before the classified byte count is reached yields `NotEnoughRoom`,
while a present byte whose top two bits are not `10` yields
`IncompleteSequence` immediately, leaving any further bytes unread (the
remaining cursor sits right after the offending byte). -/
theorem c7_continuation_errors :
    (∀ b l len, sequence_length (some b) = .ok len →
      l.length + 1 < seq_len_nat len →
      (∀ y ∈ l, y % 256 / 64 = 2) →
      validate_next (b :: l) = (.error .NotEnoughRoom, [])) ∧
    (∀ b pre x rest len, sequence_length (some b) = .ok len →
      pre.length + 2 ≤ seq_len_nat len →
      (∀ y ∈ pre, y % 256 / 64 = 2) →
      ¬x % 256 / 64 = 2 →
      validate_next (b :: (pre ++ x :: rest)) = (.error .IncompleteSequence, rest)) := by
  constructor
  · intro b l len hseq hlen htr
    cases len with
    | One =>
      simp only [seq_len_nat] at hlen
      omega
    | Two =>
      have hl : l = [] :=
        List.length_eq_zero.mp (by simp only [seq_len_nat] at hlen; omega)
      subst hl
      exact validate_next_run_err b [] .Two .NotEnoughRoom [] hseq
        (by simp [run_sequence, gs2_one])
    | Three =>
      rcases l with _ | ⟨y, _ | ⟨z, l3⟩⟩
      · exact validate_next_run_err b [] .Three .NotEnoughRoom [] hseq
          (by simp [run_sequence, gs3_one])
      · have hy : is_trail_mac y = true := (trail_true_iff y).mpr (htr y (by simp))
        exact validate_next_run_err b [y] .Three .NotEnoughRoom [] hseq
          (by simp [run_sequence, gs3_good1_one b y hy])
      · simp only [seq_len_nat, List.length_cons] at hlen
        omega
    | Four =>
      rcases l with _ | ⟨y, _ | ⟨z, _ | ⟨w, l4⟩⟩⟩
      · exact validate_next_run_err b [] .Four .NotEnoughRoom [] hseq
          (by simp [run_sequence, gs4_one])
      · have hy : is_trail_mac y = true := (trail_true_iff y).mpr (htr y (by simp))
        exact validate_next_run_err b [y] .Four .NotEnoughRoom [] hseq
          (by simp [run_sequence, gs4_good1_one b y hy])
      · have hy : is_trail_mac y = true := (trail_true_iff y).mpr (htr y (by simp))
        have hz : is_trail_mac z = true := (trail_true_iff z).mpr (htr z (by simp))
        exact validate_next_run_err b [y, z] .Four .NotEnoughRoom [] hseq
          (by simp [run_sequence, gs4_good12_two b y z hy hz])
      · simp only [seq_len_nat, List.length_cons] at hlen
        omega
  · intro b pre x rest len hseq hlen htr hx
    have hxf : is_trail_mac x = false := (trail_false_iff x).mpr hx
    cases len with
    | One =>
      simp only [seq_len_nat] at hlen
      omega
    | Two =>
      have hp : pre = [] :=
        List.length_eq_zero.mp (by simp only [seq_len_nat] at hlen; omega)
      subst hp
      simp only [List.nil_append]
      exact validate_next_run_err b (x :: rest) .Two .IncompleteSequence rest hseq
        (by simp [run_sequence, gs2_cons, hxf])
    | Three =>
      rcases pre with _ | ⟨y, _ | ⟨z, pre3⟩⟩
      · simp only [List.nil_append]
        exact validate_next_run_err b (x :: rest) .Three .IncompleteSequence rest hseq
          (by simp [run_sequence, gs3_bad1 b x rest hxf])
      · have hy : is_trail_mac y = true := (trail_true_iff y).mpr (htr y (by simp))
        simp only [List.cons_append, List.nil_append]
        exact validate_next_run_err b (y :: x :: rest) .Three .IncompleteSequence rest hseq
          (by simp [run_sequence, gs3_cons b y x rest hy, hxf])
      · simp only [seq_len_nat, List.length_cons] at hlen
        omega
    | Four =>
      rcases pre with _ | ⟨y, _ | ⟨z, _ | ⟨w, pre4⟩⟩⟩
      · simp only [List.nil_append]
        exact validate_next_run_err b (x :: rest) .Four .IncompleteSequence rest hseq
          (by simp [run_sequence, gs4_bad1 b x rest hxf])
      · have hy : is_trail_mac y = true := (trail_true_iff y).mpr (htr y (by simp))
        simp only [List.cons_append, List.nil_append]
        exact validate_next_run_err b (y :: x :: rest) .Four .IncompleteSequence rest hseq
          (by simp [run_sequence, gs4_good1_bad2 b y x rest hy hxf])
      · have hy : is_trail_mac y = true := (trail_true_iff y).mpr (htr y (by simp))
        have hz : is_trail_mac z = true := (trail_true_iff z).mpr (htr z (by simp))
        simp only [List.cons_append, List.nil_append]
        exact validate_next_run_err b (y :: z :: x :: rest) .Four .IncompleteSequence rest
          hseq (by simp [run_sequence, gs4_cons b y z x rest hy hz, hxf])
      · simp only [seq_len_nat, List.length_cons] at hlen
        omega

/-- C7 (witness): a lone `0xE2` yields `NotEnoughRoom`; `0xE2 0x41` yields
`IncompleteSequence`. -/
theorem c7_continuation_errors_witness :
    validate_next [0xE2] = (.error .NotEnoughRoom, []) ∧
    validate_next [0xE2, 0x41] = (.error .IncompleteSequence, []) := by
  have h := c7_continuation_errors
  refine ⟨h.1 0xE2 [] .Three (by decide) (by decide) (by simp), ?_⟩
  have h2 := h.2 0xE2 [] 0x41 [] .Three (by decide) (by decide) (by simp) (by decide)
  simpa using h2

/-- C8: every fully decoded code point that is in range, not a surrogate, and
whose magnitude admits a shorter encoding than the classified length
(below 0x80 with length other than 1, in 0x80..0x7FF with length other
than 2, in 0x800..0xFFFF with length other than 3) is rejected by
`validate_next` with `OverlongSequence`. -/
theorem c8_overlong_rejection (b : Nat) (l : List Nat) (len : SeqLen) (cp : Nat)
    (l1 : List Nat)
    (hseq : sequence_length (some b) = .ok len)
    (hrun : run_sequence len (b :: l) = (.ok cp, l1))
    (hrange : cp ≤ 0x10FFFF)
    (hns : ¬(0xD800 ≤ cp ∧ cp ≤ 0xDFFF))
    (hmag : (cp < 0x80 ∧ len ≠ .One) ∨ (0x80 ≤ cp ∧ cp < 0x800 ∧ len ≠ .Two) ∨
      (0x800 ≤ cp ∧ cp < 0x10000 ∧ len ≠ .Three)) :
    validate_next (b :: l) = (.error .OverlongSequence, l1) := by
  have hlt : cp < 0x10000 := by
    rcases hmag with ⟨h, _⟩ | ⟨_, h, _⟩ | ⟨_, h, _⟩ <;> omega
  have hmod : cp % 65536 = cp := Nat.mod_eq_of_lt (by omega)
  have ha : decide (cp ≤ CODE_POINT_MAX) = true :=
    decide_eq_true (by simp only [CODE_POINT_MAX]; omega)
  have hb : is_surrogate (cp % 65536) = false := by
    rw [hmod]
    simp only [is_surrogate, LEAD_SURROGATE_MIN, TRAIL_SURROGATE_MAX,
      Bool.and_eq_false_iff, decide_eq_false_iff_not]
    omega
  have hvalid : is_code_point_valid cp = true := by
    simp [is_code_point_valid, ha, hb]
  have hover : is_overlong_sequence cp len = true := by
    unfold is_overlong_sequence
    rcases hmag with ⟨h1, h2⟩ | ⟨h1, h2, h3⟩ | ⟨h1, h2, h3⟩
    · rw [if_pos h1]
      cases len <;> simp_all
    · rw [if_neg (by omega), if_pos h2]
      cases len <;> simp_all
    · rw [if_neg (by omega), if_neg (by omega), if_pos h2]
      cases len <;> simp_all
  rw [validate_next_run_ok b l len cp l1 hseq hrun, if_pos hvalid]
  simp [hover]

/-- C8 (witness): the 2-byte sequence `C0 80` is rejected with
`OverlongSequence`, not accepted as NUL. -/
theorem c8_overlong_rejection_witness :
    validate_next [0xC0, 0x80] = (.error .OverlongSequence, []) :=
  c8_overlong_rejection 0xC0 [0x80] .Two 0 [] (by decide) (by decide) (by decide)
    (by decide) (Or.inl ⟨by decide, by decide⟩)

/-- C9: every fully decoded value above 0x10FFFF, and every 3-byte sequence
decoding into the surrogate range [0xD800, 0xDFFF], is rejected by
`validate_next` with `InvalidCodePoint`. -/
theorem c9_range_surrogate_rejection :
    (∀ b l len cp l1, sequence_length (some b) = .ok len →
      run_sequence len (b :: l) = (.ok cp, l1) → 0x10FFFF < cp →
      validate_next (b :: l) = (.error .InvalidCodePoint, l1)) ∧
    (∀ b l cp l1, sequence_length (some b) = .ok .Three →
      run_sequence .Three (b :: l) = (.ok cp, l1) → 0xD800 ≤ cp → cp ≤ 0xDFFF →
      validate_next (b :: l) = (.error .InvalidCodePoint, l1)) := by
  constructor
  · intro b l len cp l1 hseq hrun hgt
    have hd : decide (cp ≤ CODE_POINT_MAX) = false :=
      decide_eq_false (by simp only [CODE_POINT_MAX]; omega)
    have hvalid : is_code_point_valid cp = false := by
      simp [is_code_point_valid, hd]
    rw [validate_next_run_ok b l len cp l1 hseq hrun, if_neg (by simp [hvalid])]
  · intro b l cp l1 hseq hrun h1 h2
    have hmod : cp % 65536 = cp := Nat.mod_eq_of_lt (by omega)
    have hsur : is_surrogate (cp % 65536) = true := by
      rw [hmod]
      simp only [is_surrogate, LEAD_SURROGATE_MIN, TRAIL_SURROGATE_MAX,
        Bool.and_eq_true, decide_eq_true_eq]
      omega
    have hvalid : is_code_point_valid cp = false := by
      simp [is_code_point_valid, hsur]
    rw [validate_next_run_ok b l .Three cp l1 hseq hrun, if_neg (by simp [hvalid])]

/-- C9 (witness): `F4 90 80 80` decodes to 0x110000 (one past the maximum)
and `ED A0 80` decodes to the surrogate 0xD800; both are rejected with
`InvalidCodePoint`. -/
theorem c9_range_surrogate_rejection_witness :
    validate_next [0xF4, 0x90, 0x80, 0x80] = (.error .InvalidCodePoint, []) ∧
    validate_next [0xED, 0xA0, 0x80] = (.error .InvalidCodePoint, []) := by
  have h := c9_range_surrogate_rejection
  exact ⟨h.1 0xF4 [0x90, 0x80, 0x80] .Four 0x110000 [] (by decide) (by decide) (by decide),
    h.2 0xED [0xA0, 0x80] 0xD800 [] (by decide) (by decide) (by decide) (by decide)⟩

section ErrorTaxonomy

lemma gnb_err (l : List Nat) (e : UtfError) (l1 : List Nat)
    (h : get_next_byte l = (.error e, l1)) : e = .NotEnoughRoom := by
  cases l <;> simp_all [get_next_byte]

lemma gs2_err (l : List Nat) (e : UtfError) (l1 : List Nat)
    (h : get_sequence_2 l = (.error e, l1)) :
    e = .NotEnoughRoom ∨ e = .IncompleteSequence := by
  rcases l with _ | ⟨a, _ | ⟨b, t⟩⟩
  · left
    simp_all [get_sequence_2, get_sequence_1, get_next_byte]
  · rw [gs2_one] at h
    simp at h
    left
    exact h.1.symm
  · rw [gs2_cons] at h
    by_cases hb : is_trail_mac b = true
    · simp [hb] at h
    · rw [if_neg hb] at h
      simp at h
      right
      exact h.1.symm

lemma gs3_err (l : List Nat) (e : UtfError) (l1 : List Nat)
    (h : get_sequence_3 l = (.error e, l1)) :
    e = .NotEnoughRoom ∨ e = .IncompleteSequence := by
  rcases l with _ | ⟨a, _ | ⟨b, _ | ⟨c, t⟩⟩⟩
  · left
    simp_all [get_sequence_3, get_sequence_1, get_next_byte]
  · rw [gs3_one] at h
    simp at h
    left
    exact h.1.symm
  · by_cases hb : is_trail_mac b = true
    · rw [gs3_good1_one a b hb] at h
      simp at h
      left
      exact h.1.symm
    · have hbf : is_trail_mac b = false := by simpa using hb
      rw [gs3_bad1 a b [] hbf] at h
      simp at h
      right
      exact h.1.symm
  · by_cases hb : is_trail_mac b = true
    · rw [gs3_cons a b c t hb] at h
      by_cases hc : is_trail_mac c = true
      · simp [hc] at h
      · rw [if_neg hc] at h
        simp at h
        right
        exact h.1.symm
    · have hbf : is_trail_mac b = false := by simpa using hb
      rw [gs3_bad1 a b (c :: t) hbf] at h
      simp at h
      right
      exact h.1.symm

lemma gs4_err (l : List Nat) (e : UtfError) (l1 : List Nat)
    (h : get_sequence_4 l = (.error e, l1)) :
    e = .NotEnoughRoom ∨ e = .IncompleteSequence := by
  rcases l with _ | ⟨a, _ | ⟨b, _ | ⟨c, _ | ⟨d, t⟩⟩⟩⟩
  · left
    simp_all [get_sequence_4, get_sequence_1, get_next_byte]
  · rw [gs4_one] at h
    simp at h
    left
    exact h.1.symm
  · by_cases hb : is_trail_mac b = true
    · rw [gs4_good1_one a b hb] at h
      simp at h
      left
      exact h.1.symm
    · have hbf : is_trail_mac b = false := by simpa using hb
      rw [gs4_bad1 a b [] hbf] at h
      simp at h
      right
      exact h.1.symm
  · by_cases hb : is_trail_mac b = true
    · by_cases hc : is_trail_mac c = true
      · rw [gs4_good12_two a b c hb hc] at h
        simp at h
        left
        exact h.1.symm
      · have hcf : is_trail_mac c = false := by simpa using hc
        rw [gs4_good1_bad2 a b c [] hb hcf] at h
        simp at h
        right
        exact h.1.symm
    · have hbf : is_trail_mac b = false := by simpa using hb
      rw [gs4_bad1 a b (c :: []) hbf] at h
      simp at h
      right
      exact h.1.symm
  · by_cases hb : is_trail_mac b = true
    · by_cases hc : is_trail_mac c = true
      · rw [gs4_cons a b c d t hb hc] at h
        by_cases hd : is_trail_mac d = true
        · simp [hd] at h
        · rw [if_neg hd] at h
          simp at h
          right
          exact h.1.symm
      · have hcf : is_trail_mac c = false := by simpa using hc
        rw [gs4_good1_bad2 a b c (d :: t) hb hcf] at h
        simp at h
        right
        exact h.1.symm
    · have hbf : is_trail_mac b = false := by simpa using hb
      rw [gs4_bad1 a b (c :: d :: t) hbf] at h
      simp at h
      right
      exact h.1.symm

lemma run_seq_err (len : SeqLen) (l : List Nat) (e : UtfError) (l1 : List Nat)
    (h : run_sequence len l = (.error e, l1)) :
    e = .NotEnoughRoom ∨ e = .IncompleteSequence := by
  cases len with
  | One => exact Or.inl (gnb_err l e l1 h)
  | Two => exact gs2_err l e l1 h
  | Three => exact gs3_err l e l1 h
  | Four => exact gs4_err l e l1 h

end ErrorTaxonomy

/-- C10: the `EmptyInput` variant of the core `UtfError` enum is unreachable:
for every input byte source, `validate_next` never returns
`Err(EmptyInput)` (the classifier yields `InvalidLead`, the byte pullers
yield `NotEnoughRoom` or `IncompleteSequence`, and the post-decode checks
yield `OverlongSequence` or `InvalidCodePoint`). -/
theorem c10_empty_input_unreachable (l : List Nat) :
    is_empty_input_err (validate_next l).1 = false := by
  rcases l with _ | ⟨b, t⟩
  · decide
  · rcases hs : sequence_length (some b) with e | len
    · have he := seq_err hs
      subst he
      rw [validate_next_cons_err b t hs]
      rfl
    · rcases hr : run_sequence len (b :: t) with ⟨e2 | cp, l1⟩
      · have hcl := run_seq_err len (b :: t) e2 l1 hr
        rw [validate_next_run_err b t len e2 l1 hs hr]
        rcases hcl with h | h <;> subst h <;> rfl
      · rw [validate_next_run_ok b t len cp l1 hs hr]
        by_cases h1 : is_code_point_valid cp = true
        · by_cases h2 : is_overlong_sequence cp len = true
          · simp [h1, h2, is_empty_input_err]
          · simp [h1, h2, is_empty_input_err]
        · simp [h1, is_empty_input_err]

end Claims

end ValidUtf8
